import Mathlib

/-!
Verification of `src/fibonacci_app.py`.

The file contains one pure function, `fibonacci_recursive`, and a sequence
of display-layer calls.  Python integers are arbitrary precision, so the
argument and result are embedded as `Int`; `raise ValueError(msg)` is
embedded as `Except.error msg`, an ordinary return as `Except.ok`.
-/

/-- Shallow embedding of `fibonacci_recursive` (src/fibonacci_app.py lines 3-20).

```
def fibonacci_recursive(n):
    if n < 0:
        raise ValueError("n must be non-negative")
    if n <= 1:
        return n
    return fibonacci_recursive(n - 1) + fibonacci_recursive(n - 2)
```

The recursive case evaluates `fibonacci_recursive(n - 1)` first; an
exception raised there propagates before `fibonacci_recursive(n - 2)` is
evaluated, which the nested `match` reproduces. -/
def fibonacci_recursive (n : Int) : Except String Int :=
  if n < 0 then Except.error "n must be non-negative"
  else if n ≤ 1 then Except.ok n
  else
    match fibonacci_recursive (n - 1) with
    | Except.error e => Except.error e
    | Except.ok a =>
      match fibonacci_recursive (n - 2) with
      | Except.error e => Except.error e
      | Except.ok b => Except.ok (a + b)
termination_by n.toNat
decreasing_by
  all_goals omega

/-- Helper: on a natural-number argument the function succeeds and returns
the mathematical Fibonacci number `Nat.fib k`. -/
theorem fibonacci_recursive_natCast (k : Nat) :
    fibonacci_recursive (k : Int) = Except.ok (Nat.fib k : Int) := by
  induction k using Nat.strong_induction_on with
  | _ k ih =>
    match k with
    | 0 => rw [fibonacci_recursive]; norm_num
    | 1 => rw [fibonacci_recursive]; norm_num
    | (k + 2) =>
      rw [fibonacci_recursive]
      have h1 : ¬ ((k + 2 : Nat) : Int) < 0 := by push_cast; omega
      have h2 : ¬ ((k + 2 : Nat) : Int) ≤ 1 := by push_cast; omega
      rw [if_neg h1, if_neg h2]
      have e1 : ((k + 2 : Nat) : Int) - 1 = ((k + 1 : Nat) : Int) := by push_cast; ring
      have e2 : ((k + 2 : Nat) : Int) - 2 = ((k : Nat) : Int) := by push_cast; ring
      rw [e1, e2, ih (k + 1) (by omega), ih k (by omega)]
      rw [Nat.fib_add_two]
      push_cast
      ring_nf

/-- Helper: for any non-negative integer argument the function succeeds and
returns `Nat.fib n.toNat`. -/
theorem fibonacci_recursive_nonneg (n : Int) (h : 0 ≤ n) :
    fibonacci_recursive n = Except.ok (Nat.fib n.toNat : Int) := by
  have hk := fibonacci_recursive_natCast n.toNat
  rwa [Int.toNat_of_nonneg h] at hk

/-- Helper: concrete evaluation of `fibonacci_recursive` through `Nat.fib`
(the well-founded definition does not reduce definitionally, so concrete
values are obtained from `fibonacci_recursive_natCast`). -/
theorem fibonacci_recursive_eval (k m : Nat) (h : Nat.fib k = m) :
    fibonacci_recursive (k : Int) = Except.ok (m : Int) := by
  rw [fibonacci_recursive_natCast, h]

/-- Fuel-indexed variant of `fibonacci_recursive`: `fib_fuel fuel n` runs the
same tests and the same two recursive calls as the source function but
refuses to recurse deeper than `fuel` nested activations, answering `none`
when the fuel is exhausted.  It makes the recursion-depth bound of the
source function statable: `fuel = n.toNat + 1` always suffices. -/
def fib_fuel : Nat → Int → Option (Except String Int)
  | 0, _ => none
  | fuel + 1, n =>
    if n < 0 then some (Except.error "n must be non-negative")
    else if n ≤ 1 then some (Except.ok n)
    else
      match fib_fuel fuel (n - 1) with
      | none => none
      | some (Except.error e) => some (Except.error e)
      | some (Except.ok a) =>
        match fib_fuel fuel (n - 2) with
        | none => none
        | some (Except.error e) => some (Except.error e)
        | some (Except.ok b) => some (Except.ok (a + b))

/-- State-passing embedding of a call to `fibonacci_recursive` from any
caller holding external state of type `σ` (for example the display layer's
process-wide framework state).  The body of `fibonacci_recursive`
(src/fibonacci_app.py lines 16-20) contains no `st.*` call, no `global`
statement and no store to any name outside its own frame, so the call
threads the caller's state through unchanged and its outcome is that of
the pure function. -/
def callCompute (σ : Type) (s : σ) (n : Int) : σ × Except String Int :=
  (s, fibonacci_recursive n)


/-- C1: for every integer `n ≥ 2`, `fibonacci_recursive n` returns exactly
the sum of the values returned by `fibonacci_recursive (n-1)` and
`fibonacci_recursive (n-2)`. -/
theorem fibonacci_recursive_add_of_two_le (n : Int) (h : 2 ≤ n) (a b : Int)
    (ha : fibonacci_recursive (n - 1) = Except.ok a)
    (hb : fibonacci_recursive (n - 2) = Except.ok b) :
    fibonacci_recursive n = Except.ok (a + b) := by
  rw [fibonacci_recursive, if_neg (by omega), if_neg (by omega), ha, hb]

/-- Witness for C1 at `n = 5`: `fibonacci_recursive 4 = 3`,
`fibonacci_recursive 3 = 2`, and indeed `fibonacci_recursive 5 = 3 + 2`. -/
theorem fibonacci_recursive_add_of_two_le_witness :
    (2 : Int) ≤ 5 ∧ fibonacci_recursive 5 = Except.ok (3 + 2) := by
  have ha : fibonacci_recursive ((5 : Int) - 1) = Except.ok 3 := by
    have := fibonacci_recursive_eval 4 3 (by decide)
    norm_num at this ⊢
    exact this
  have hb : fibonacci_recursive ((5 : Int) - 2) = Except.ok 2 := by
    have := fibonacci_recursive_eval 3 2 (by decide)
    norm_num at this ⊢
    exact this
  exact ⟨by norm_num, fibonacci_recursive_add_of_two_le 5 (by norm_num) 3 2 ha hb⟩

/-- C2: the base cases — `fibonacci_recursive 0` returns `0` and
`fibonacci_recursive 1` returns `1` (the argument itself for `n ∈ {0,1}`). -/
theorem fibonacci_recursive_base_cases :
    fibonacci_recursive 0 = Except.ok 0 ∧ fibonacci_recursive 1 = Except.ok 1 := by
  constructor <;> (rw [fibonacci_recursive]; norm_num)

/-- C3: `fibonacci_recursive 10`, the single call exercised by the display
layer (src/fibonacci_app.py line 30), returns exactly `55`. -/
theorem fibonacci_recursive_ten : fibonacci_recursive 10 = Except.ok 55 := by
  have := fibonacci_recursive_eval 10 55 (by decide)
  norm_num at this
  exact this

/-- C4: for every integer `n < 0`, `fibonacci_recursive n` fails before any
recursion with the error whose message says `n` must be non-negative. -/
theorem fibonacci_recursive_neg (n : Int) (h : n < 0) :
    fibonacci_recursive n = Except.error "n must be non-negative" := by
  rw [fibonacci_recursive, if_pos h]

/-- Witness for C4 at `n = -1`: `fibonacci_recursive (-1)` fails with the
non-negativity error. -/
theorem fibonacci_recursive_neg_witness :
    (-1 : Int) < 0 ∧ fibonacci_recursive (-1) = Except.error "n must be non-negative" :=
  ⟨by norm_num, fibonacci_recursive_neg (-1) (by norm_num)⟩

/-- C5: for every integer `n ≥ 0`, `fibonacci_recursive n` succeeds and
returns an integer — the error branch is unreachable under `0 ≤ n`. -/
theorem fibonacci_recursive_total_of_nonneg (n : Int) (h : 0 ≤ n) :
    ∃ v : Int, fibonacci_recursive n = Except.ok v :=
  ⟨(Nat.fib n.toNat : Int), fibonacci_recursive_nonneg n h⟩

/-- Witness for C5 at `n = 3`. -/
theorem fibonacci_recursive_total_of_nonneg_witness :
    (0 : Int) ≤ 3 ∧ ∃ v : Int, fibonacci_recursive 3 = Except.ok v :=
  ⟨by norm_num, fibonacci_recursive_total_of_nonneg 3 (by norm_num)⟩

/-- C6: termination with recursion depth bounded by `n` — for every `n ≥ 0`,
any fuel bound exceeding `n.toNat` is never exhausted: the fuel-indexed
variant agrees with `fibonacci_recursive` instead of answering `none`. -/
theorem fib_fuel_eq_of_lt_fuel (n : Int) (h : 0 ≤ n) (fuel : Nat)
    (hf : n.toNat < fuel) :
    fib_fuel fuel n = some (fibonacci_recursive n) := by
  induction fuel generalizing n with
  | zero => omega
  | succ fuel ih =>
    by_cases h1 : n ≤ 1
    · rw [fib_fuel, fibonacci_recursive, if_neg (by omega), if_pos h1,
        if_neg (by omega), if_pos h1]
    · have ih1 := ih (n - 1) (by omega) (by omega)
      have ih2 := ih (n - 2) (by omega) (by omega)
      obtain ⟨m, hm⟩ : ∃ m, n.toNat = m + 2 := ⟨n.toNat - 2, by omega⟩
      have hm1 : (n - 1).toNat = m + 1 := by omega
      have hm2 : (n - 2).toNat = m := by omega
      rw [fib_fuel, if_neg (by omega), if_neg h1, ih1, ih2,
        fibonacci_recursive_nonneg (n - 1) (by omega),
        fibonacci_recursive_nonneg (n - 2) (by omega),
        fibonacci_recursive_nonneg n h, hm, hm1, hm2, Nat.fib_add_two]
      push_cast
      ring_nf

/-- Witness for C6 at `n = 5`, `fuel = 6`. -/
theorem fib_fuel_eq_of_lt_fuel_witness :
    (0 : Int) ≤ 5 ∧ (5 : Int).toNat < 6 ∧
      fib_fuel 6 5 = some (fibonacci_recursive 5) :=
  ⟨by norm_num, by norm_num, fib_fuel_eq_of_lt_fuel 5 (by norm_num) 6 (by norm_num)⟩

/-- C7: monotonicity — for every integer `n ≥ 1`, the value returned by
`fibonacci_recursive n` is at least the value returned by
`fibonacci_recursive (n-1)`. -/
theorem fibonacci_recursive_monotone_step (n : Int) (h : 1 ≤ n) (a b : Int)
    (ha : fibonacci_recursive n = Except.ok a)
    (hb : fibonacci_recursive (n - 1) = Except.ok b) : b ≤ a := by
  rw [fibonacci_recursive_nonneg n (by omega)] at ha
  rw [fibonacci_recursive_nonneg (n - 1) (by omega)] at hb
  simp only [Except.ok.injEq] at ha hb
  subst ha hb
  exact_mod_cast Nat.fib_mono (by omega : (n - 1).toNat ≤ n.toNat)

/-- Witness for C7 at `n = 2`: `fibonacci_recursive 2 = 1`,
`fibonacci_recursive 1 = 1`, and `1 ≤ 1`. -/
theorem fibonacci_recursive_monotone_step_witness :
    (1 : Int) ≤ 2 ∧ (1 : Int) ≤ 1 := by
  have ha : fibonacci_recursive (2 : Int) = Except.ok 1 := by
    have := fibonacci_recursive_eval 2 1 (by decide)
    norm_num at this
    exact this
  have hb : fibonacci_recursive ((2 : Int) - 1) = Except.ok 1 := by
    have := fibonacci_recursive_eval 1 1 (by decide)
    norm_num at this ⊢
    exact this
  exact ⟨by norm_num, fibonacci_recursive_monotone_step 2 (by norm_num) 1 1 ha hb⟩

/-- C8: determinism — two calls of `fibonacci_recursive` with the same
argument have the same outcome (same value on success, same error on
failure): the outcome is a function of the argument alone. -/
theorem fibonacci_recursive_deterministic (n m : Int) (h : n = m) :
    fibonacci_recursive n = fibonacci_recursive m := by
  rw [h]

/-- Witness for C8 at `n = m = 7`. -/
theorem fibonacci_recursive_deterministic_witness :
    (7 : Int) = 7 ∧ fibonacci_recursive 7 = fibonacci_recursive 7 :=
  ⟨rfl, fibonacci_recursive_deterministic 7 7 rfl⟩

/-- C9: purity — a call to `fibonacci_recursive` through `callCompute`
leaves the caller's external state (of any type `σ`, including the display
layer's framework state) unchanged, and its outcome does not depend on
that state, only on the argument `n`. -/
theorem callCompute_frame (σ : Type) (s t : σ) (n : Int) :
    (callCompute σ s n).1 = s ∧ (callCompute σ s n).2 = (callCompute σ t n).2 :=
  ⟨rfl, rfl⟩

/-- C10: arbitrary precision — for every integer `n ≥ 0`,
`fibonacci_recursive n` returns exactly the mathematical `n`-th Fibonacci
number `Nat.fib n.toNat` (a non-negative integer), with no overflow or
wraparound: the embedding uses unbounded `Int`, matching Python's
arbitrary-precision integers. -/
theorem fibonacci_recursive_exact_fib (n : Int) (h : 0 ≤ n) :
    fibonacci_recursive n = Except.ok (Nat.fib n.toNat : Int) ∧
      0 ≤ (Nat.fib n.toNat : Int) :=
  ⟨fibonacci_recursive_nonneg n h, by positivity⟩

/-- Witness for C10 at `n = 6`: `fibonacci_recursive 6 = Nat.fib 6 = 8`. -/
theorem fibonacci_recursive_exact_fib_witness :
    (0 : Int) ≤ 6 ∧ fibonacci_recursive 6 = Except.ok (Nat.fib (6 : Int).toNat : Int) ∧
      0 ≤ (Nat.fib (6 : Int).toNat : Int) :=
  ⟨by norm_num, fibonacci_recursive_exact_fib 6 (by norm_num)⟩
